import Mathlib

/-!
Verification of the inbox-to-card pipeline of `transform_inbox_to_csv.py`
(with its enrichment shim `_openai_compat.py`).

The Python code is shallowly embedded: strings are Lean `String`s processed
through their underlying `List Char`; Python `set`s are lists inserted
without duplicates (only membership is observed); file contents are lists of
line strings; parsed JSON-lines are an inductive type; the network and the
enrichment collaborator are explicit function-valued parameters of the
environment.  Python regular expressions are compiled by hand into character
scans that agree with the regex on all inputs reachable here.  Recursions
that are not structural use an explicit fuel argument that is always at
least the length of the scanned list, so every definition is executable and
kernel-reducible.
-/

set_option maxRecDepth 20000

/-- Python `str.isspace` / `\s` character class (the Unicode whitespace set
used by `str.strip`, `str.split` and `re \s` on `str` patterns). -/
def pyIsSpace (c : Char) : Bool :=
  c.val == 9 || c.val == 10 || c.val == 11 || c.val == 12 || c.val == 13 ||
  c.val == 28 || c.val == 29 || c.val == 30 || c.val == 31 || c.val == 32 ||
  c.val == 133 || c.val == 160 || c.val == 0x1680 ||
  (0x2000 ≤ c.val && c.val ≤ 0x200a) ||
  c.val == 0x2028 || c.val == 0x2029 || c.val == 0x202f ||
  c.val == 0x205f || c.val == 0x3000

/-- Python `str.lower` on the character ranges exercised here
(ASCII plus Latin-1 letters). -/
def pyLowerChar (c : Char) : Char :=
  if 65 ≤ c.val && c.val ≤ 90 then Char.ofNat (c.toNat + 32)
  else if 0xC0 ≤ c.val && c.val ≤ 0xDE && c.val ≠ 0xD7 then Char.ofNat (c.toNat + 32)
  else c

/-- Python `\w` (word character) on the ranges exercised here: ASCII
alphanumerics, underscore, and Latin letters up to Latin Extended-A. -/
def isWordChar (c : Char) : Bool :=
  c.isAlphanum || c == '_' || c.val == 0xAA || c.val == 0xB5 || c.val == 0xBA ||
  (0xC0 ≤ c.val && c.val ≤ 0xFF && c.val ≠ 0xD7 && c.val ≠ 0xF7) ||
  (0x100 ≤ c.val && c.val ≤ 0x17F)

def stripCore (l : List Char) : List Char :=
  ((l.dropWhile pyIsSpace).reverse.dropWhile pyIsSpace).reverse

/-- Python `str.strip()`. -/
def pyStrip (s : String) : String :=
  ⟨stripCore s.data⟩

/-- Python `str.lower()`. -/
def lowerStr (s : String) : String :=
  ⟨s.data.map pyLowerChar⟩

/-- Split on the characters satisfying `p`, keeping empty groups
(Python `str.split(sep)` semantics for a one-character separator). -/
def splitKeep (p : Char → Bool) (l : List Char) : List (List Char) :=
  l.foldr
    (fun c acc =>
      if p c then [] :: acc
      else
        match acc with
        | [] => [[c]]
        | g :: gs => (c :: g) :: gs)
    [[]]

/-- Maximal runs of characters not satisfying `p` (splitting on `p`-runs and
dropping empty pieces, as Python `str.split()` and `re.split` with a `+`
pattern followed by an emptiness filter do). -/
def chunksNot (p : Char → Bool) (l : List Char) : List (List Char) :=
  (splitKeep p l).filter (fun g => !g.isEmpty)

/-- Python `str.split()` with no argument: split on whitespace runs. -/
def splitWsStr (s : String) : List String :=
  (chunksNot pyIsSpace s.data).map (fun g => ⟨g⟩)

/-- `_clean_spaces`: `re.sub(r"\s+", " ", s).strip()`. -/
def cleanSpaces (s : String) : String :=
  " ".intercalate (splitWsStr s)

def containsSubCore : List Char → List Char → Bool
  | _, [] => true
  | [], _ :: _ => false
  | c :: cs, n => n.isPrefixOf (c :: cs) || containsSubCore cs n

/-- Python `needle in hay` on strings (substring containment). -/
def containsSub (hay needle : String) : Bool :=
  containsSubCore hay.data needle.data

/-- Does the string contain the given character (Python `c in s`)? -/
def containsChar (s : String) (c : Char) : Bool :=
  s.data.contains c

/-- Python `str.replace(pat, rep)` for a non-empty `pat`, with fuel
(left-to-right, non-overlapping). -/
def replaceCore (pat rep : List Char) : Nat → List Char → List Char
  | _, [] => []
  | 0, l => l
  | Nat.succ n, c :: cs =>
    if pat.isPrefixOf (c :: cs) then rep ++ replaceCore pat rep n ((c :: cs).drop pat.length)
    else c :: replaceCore pat rep n cs

def replaceStr (s pat rep : String) : String :=
  ⟨replaceCore pat.data rep.data s.data.length s.data⟩

/-- The `_SMART_MAP` table of `_normalize_ascii_quotes` (each entry maps one
character to one character, so the sequence of `str.replace` calls is a
character map). -/
def smartMapChar (c : Char) : Char :=
  if c == '“' || c == '”' then '"'
  else if c == '‘' || c == '’' then '\''
  else if c.val == 0xa0 || c.val == 0x2009 || c.val == 0x200a || c.val == 0x202f then ' '
  else c

/-- `_normalize_ascii_quotes`. -/
def normalizeAsciiQuotes (s : String) : String :=
  ⟨s.data.map smartMapChar⟩

/-- One pass of `_HTML_TAG_RE.sub(" ", ·)` with `_HTML_TAG_RE = <[^>]+>`:
each `<` followed by at least one non-`>` character and then `>` is replaced
by a single space; fuel-driven scan. -/
def tagSubCore : Nat → List Char → List Char
  | _, [] => []
  | 0, l => l
  | Nat.succ n, '<' :: rest =>
    let body := rest.takeWhile (fun c => c ≠ '>')
    match rest.dropWhile (fun c => c ≠ '>') with
    | '>' :: tail =>
      if body.isEmpty then '<' :: tagSubCore n rest
      else ' ' :: tagSubCore n tail
    | _ => '<' :: tagSubCore n rest
  | Nat.succ n, c :: rest => c :: tagSubCore n rest

def tagSub (s : String) : String :=
  ⟨tagSubCore s.data.length s.data⟩

/-- Entity table for the model of Python `html.unescape`: the named
entities (with terminating semicolon) exercised by this development.
Unknown entity names are left verbatim, as `html.unescape` does. -/
def htmlEntities : List (List Char × Char) :=
  [("amp;".data, '&'), ("lt;".data, '<'), ("gt;".data, '>'),
   ("quot;".data, '"'), ("apos;".data, '\''), ("nbsp;".data, Char.ofNat 0xa0)]

def matchEntity : List (List Char × Char) → List Char → Option (Char × List Char)
  | [], _ => none
  | (name, c) :: rest, l =>
    if name.isPrefixOf l then some (c, l.drop name.length)
    else matchEntity rest l

def isHexDigitChar (c : Char) : Bool :=
  c.isDigit || ('a' ≤ c && c ≤ 'f') || ('A' ≤ c && c ≤ 'F')

def hexDigitVal (c : Char) : Nat :=
  if c.isDigit then c.toNat - 48
  else if 'a' ≤ c && c ≤ 'f' then c.toNat - 87
  else c.toNat - 55

/-- Numeric character reference after `&#`: decimal `NNN;` or hex `xHH;`. -/
def matchNumericEntity (l : List Char) : Option (Char × List Char) :=
  match l with
  | '#' :: rest =>
    match rest with
    | 'x' :: hex =>
      let ds := hex.takeWhile isHexDigitChar
      (match hex.dropWhile isHexDigitChar with
       | ';' :: tail =>
         if ds.isEmpty then none
         else some (Char.ofNat (ds.foldl (fun n c => n * 16 + hexDigitVal c) 0), tail)
       | _ => none)
    | _ =>
      let ds := rest.takeWhile Char.isDigit
      (match rest.dropWhile Char.isDigit with
       | ';' :: tail =>
         if ds.isEmpty then none
         else some (Char.ofNat (ds.foldl (fun n c => n * 10 + (c.toNat - 48)) 0), tail)
       | _ => none)
  | _ => none

/-- Model of Python `html.unescape`, restricted to the entity forms in
`htmlEntities` plus numeric references; fuel-driven scan. -/
def htmlUnescapeCore : Nat → List Char → List Char
  | _, [] => []
  | 0, l => l
  | Nat.succ n, '&' :: rest =>
    (match matchEntity htmlEntities rest with
     | some (c, tail) => c :: htmlUnescapeCore n tail
     | none =>
       match matchNumericEntity rest with
       | some (c, tail) => c :: htmlUnescapeCore n tail
       | none => '&' :: htmlUnescapeCore n rest)
  | Nat.succ n, c :: rest => c :: htmlUnescapeCore n rest

def htmlUnescape (s : String) : String :=
  ⟨htmlUnescapeCore s.data.length s.data⟩

/-- `_normalize_sentence_for_key`. -/
def normalizeSentenceForKey (value : String) : String :=
  let text := htmlUnescape value
  let text := replaceStr text "<br />" "\n"
  let text := replaceStr text "<br>" "\n"
  let text := replaceStr text "</div>" "\n"
  let text := replaceStr text "<div>" "\n"
  let text := tagSub text
  let text := replaceStr text "\r\n" "\n"
  let text := replaceStr text "\r" "\n"
  cleanSpaces text

/-- `_sentence_duplicate_key`. -/
def sentenceDuplicateKey (wordEn sentencePt sentenceEn : String) :
    String × String × String :=
  (lowerStr (pyStrip wordEn), normalizeSentenceForKey sentencePt,
   normalizeSentenceForKey sentenceEn)

/-! ## Persisted store (CSV) model

A store file is modelled as the list of its lines (without terminators);
`[]` stands for a missing or empty file (`not exists or st_size == 0`).
Rows are parsed by splitting a line on `,`; this models `csv.reader` for
files whose fields contain no quotes, commas or embedded newlines, which
covers every file this development reasons about. -/

/-- A physical CSV line as a row (`csv.reader` yields `[]` for an empty
line, and Python `"".split(',')` would not, hence the special case). -/
def splitCommas (line : String) : List String :=
  if line = "" then []
  else (splitKeep (fun c => c == ',') line.data).map (fun g => ⟨g⟩)

/-- `re.match(r'^\d{4}-\d{2}-\d{2}$', s)`: exactly `DDDD-DD-DD`. -/
def isIsoDate (s : String) : Bool :=
  match s.data with
  | [a, b, c, d, e, f, g, h, i, j] =>
    a.isDigit && b.isDigit && c.isDigit && d.isDigit && e == '-' &&
    f.isDigit && g.isDigit && h == '-' && i.isDigit && j.isDigit
  | _ => false

/-- The two column orders of `_detect_csv_format`: `new` is
`word_en, word_pt, sentence_pt, sentence_en, date_added`; `old` (legacy) is
`date_added, word_pt, word_en, sentence_pt, sentence_en`. -/
inductive CsvFmt where
  | new
  | old
  deriving DecidableEq, Repr

/-- `line.split(',')[0].strip()` (the head of a comma-split is the run of
characters before the first comma). -/
def firstCommaField (l : String) : String :=
  pyStrip ⟨l.data.takeWhile (fun c => c ≠ ',')⟩

/-- `_detect_csv_format`: reads the literal first line of the file
(`f.readline().strip()`), then header check, then ISO-date check on the
first comma-field. -/
def detectCsvFormat (lines : List String) : Bool × CsvFmt :=
  match lines with
  | [] => (false, CsvFmt.new)
  | l :: _ =>
    let firstLine := pyStrip l
    if firstLine = "" then (false, CsvFmt.new)
    else if containsSub (lowerStr firstLine) "word_en" then (true, CsvFmt.new)
    else if isIsoDate (firstCommaField firstLine) then (false, CsvFmt.old)
    else (false, CsvFmt.new)

/-- Add to a Python `set` modelled as a duplicate-free list (only
membership in the result is ever observed). -/
def insertIfAbsent {α : Type} [DecidableEq α] (seen : List α) (w : α) : List α :=
  if w ∈ seen then seen else seen ++ [w]

theorem mem_insertIfAbsent {α : Type} [DecidableEq α] (seen : List α) (w x : α) :
    x ∈ insertIfAbsent seen w ↔ x ∈ seen ∨ x = w := by
  unfold insertIfAbsent
  by_cases h : w ∈ seen
  · simp only [if_pos h]
    constructor
    · exact fun hx => Or.inl hx
    · rintro (hx | rfl)
      · exact hx
      · exact h
  · simp [if_neg h, List.mem_append]

/-- The word contributed by one parsed row in `load_existing_words`:
`row[col].strip().lower()` when the row is long enough and the result is
non-empty. -/
def colWord (col : Nat) (row : List String) : Option String :=
  match row.get? col with
  | none => none
  | some cell =>
    let w := lowerStr (pyStrip cell)
    if w = "" then none else some w

def lewAdd (col : Nat) (seen : List String) (row : List String) : List String :=
  match colWord col row with
  | none => seen
  | some w => insertIfAbsent seen w

def lewGo (col : Nat) (hasHeader : Bool) (firstRow : Bool) (seen : List String) :
    List String → List String
  | [] => seen
  | line :: rest =>
    let row := splitCommas line
    if row.isEmpty then lewGo col hasHeader firstRow seen rest
    else if firstRow && hasHeader then lewGo col hasHeader false seen rest
    else lewGo col hasHeader false (lewAdd col seen row) rest

/-- `load_existing_words`. -/
def loadExistingWords (lines : List String) : List String :=
  if lines.isEmpty then []
  else
    let det := detectCsvFormat lines
    let col := match det.2 with
      | CsvFmt.new => 0
      | CsvFmt.old => 2
    lewGo col det.1 true [] lines

/-- The key contributed by one parsed row in
`load_existing_sentence_pairs` (rows shorter than the deepest used column
are skipped). -/
def colKey (wCol spCol seCol : Nat) (row : List String) :
    Option (String × String × String) :=
  if row.length ≤ max wCol (max spCol seCol) then none
  else some (sentenceDuplicateKey (row.getD wCol "") (row.getD spCol "") (row.getD seCol ""))

def lespAdd (wCol spCol seCol : Nat) (seen : List (String × String × String))
    (row : List String) : List (String × String × String) :=
  match colKey wCol spCol seCol row with
  | none => seen
  | some k => insertIfAbsent seen k

def lespGo (wCol spCol seCol : Nat) (hasHeader : Bool) (firstRow : Bool)
    (seen : List (String × String × String)) :
    List String → List (String × String × String)
  | [] => seen
  | line :: rest =>
    let row := splitCommas line
    if row.isEmpty then lespGo wCol spCol seCol hasHeader firstRow seen rest
    else if firstRow && hasHeader then lespGo wCol spCol seCol hasHeader false seen rest
    else lespGo wCol spCol seCol hasHeader false (lespAdd wCol spCol seCol seen row) rest

/-- `load_existing_sentence_pairs`. -/
def loadExistingSentencePairs (lines : List String) :
    List (String × String × String) :=
  if lines.isEmpty then []
  else
    let det := detectCsvFormat lines
    match det.2 with
    | CsvFmt.new => lespGo 0 2 3 det.1 true [] lines
    | CsvFmt.old => lespGo 2 3 4 det.1 true [] lines

/-- A canonical in-memory row, as built in `main`:
`[word_en, word_pt, sentence_pt, sentence_en, date_added]`. -/
structure Row where
  wordEn : String
  wordPt : String
  sentencePt : String
  sentenceEn : String
  dateAdded : String
  deriving DecidableEq, Repr

def csvHeaderRow : List String :=
  ["word_en", "word_pt", "sentence_pt", "sentence_en", "date_added"]

def rowToNewList (r : Row) : List String :=
  [r.wordEn, r.wordPt, r.sentencePt, r.sentenceEn, r.dateAdded]

/-- The reordering `append_rows` performs for a legacy file:
`[word_en, word_pt, sentence_pt, sentence_en, date_added]` becomes
`[date_added, word_pt, word_en, sentence_pt, sentence_en]`. -/
def rowToOldList (r : Row) : List String :=
  [r.dateAdded, r.wordPt, r.wordEn, r.sentencePt, r.sentenceEn]

/-- `append_rows`, observed as the sequence of rows handed to
`csv.writer.writerow` (including the header written for a fresh file). -/
def appendRows (lines : List String) (rows : List Row) : List (List String) :=
  if lines.isEmpty then csvHeaderRow :: rows.map rowToNewList
  else
    match (detectCsvFormat lines).2 with
    | CsvFmt.old => rows.map rowToOldList
    | CsvFmt.new => rows.map rowToNewList

/-! ## Entry normalization (`extract_lemma`) -/

/-- The `_STOPWORDS` set (the source lists "her" twice; set semantics make
the duplicate irrelevant and list membership agrees). -/
def stopwords : List String :=
  ["i", "you", "he", "she", "it", "we", "they", "me", "him", "her", "us",
   "them", "a", "an", "the", "this", "that", "these", "those", "to", "of",
   "in", "on", "at", "for", "from", "with", "by", "as", "about", "into",
   "through", "over", "after", "before", "between", "without", "within",
   "against", "and", "or", "but", "if", "because", "so", "though",
   "although", "while", "be", "am", "is", "are", "was", "were", "been",
   "being", "have", "has", "had", "having", "do", "does", "did", "doing",
   "can", "could", "should", "would", "will", "must", "may", "might", "my",
   "your", "his", "our", "their", "mine", "yours", "hers", "ours",
   "theirs", "page", "pages"]

/-- `_PUNCT_RE.sub("", t)` with `_PUNCT_RE = ^[^\w]+|[^\w]+$`: drop the
leading and trailing runs of non-word characters. -/
def stripPunct (t : String) : String :=
  ⟨((t.data.dropWhile (fun c => !isWordChar c)).reverse.dropWhile
      (fun c => !isWordChar c)).reverse⟩

/-- `_tokens`. -/
def pyTokens (s : String) : List String :=
  (splitWsStr (cleanSpaces s)).filterMap (fun t =>
    let u := stripPunct t
    if u = "" then none else some u)

def isAsciiLetter (c : Char) : Bool :=
  ('a' ≤ c && c ≤ 'z') || ('A' ≤ c && c ≤ 'Z')

/-- Try `re` match of `\bto\s+([a-zA-Z]+)\b` anchored at the head of `l`,
with `prev` the character before `l` (`none` at the start of the string).
Returns the captured letter group.  The capture group is the maximal ASCII
letter run; backtracking cannot rescue a failed trailing `\b`, since any
shorter group still ends right before a word character. -/
def tryToVerbAt (prev : Option Char) (l : List Char) : Option (List Char) :=
  match l with
  | 't' :: 'o' :: rest =>
    let boundary := match prev with
      | none => true
      | some c => !isWordChar c
    if boundary then
      if (rest.takeWhile pyIsSpace).isEmpty then none
      else
        let after := rest.dropWhile pyIsSpace
        let letters := after.takeWhile isAsciiLetter
        if letters.isEmpty then none
        else
          match after.dropWhile isAsciiLetter with
          | [] => some letters
          | c :: _ => if isWordChar c then none else some letters
    else none
  | _ => none

/-- `re.search(r"\bto\s+([a-zA-Z]+)\b", s)`: leftmost match. -/
def searchToVerb : Option Char → List Char → Option (List Char)
  | _, [] => none
  | prev, c :: cs =>
    match tryToVerbAt prev (c :: cs) with
    | some g => some g
    | none => searchToVerb (some c) cs

/-- `re.search(r"[.!?]$", s)` for a string with no trailing newline
(every call site strips first): the last character is `.`, `!` or `?`. -/
def endsSentencePunct (s : String) : Bool :=
  match s.data.reverse with
  | [] => false
  | c :: _ => c == '.' || c == '!' || c == '?'

/-- `re.sub(r"[.!?]+$", "", s)`: drop the maximal trailing run of
sentence punctuation. -/
def stripTerminalPunct (s : String) : String :=
  ⟨(s.data.reverse.dropWhile (fun c => c == '.' || c == '!' || c == '?')).reverse⟩

/-- Python `max(remaining, key=len)`: the first element of maximal length. -/
def firstLongest (x : String) (xs : List String) : String :=
  xs.foldl (fun acc t => if acc.data.length < t.data.length then t else acc) x

/-- `extract_lemma`. -/
def extractLemma (raw : String) : Option (String × String) :=
  let s := pyStrip (normalizeAsciiQuotes raw)
  if s = "" then none
  else
    let toks := pyTokens s
    if toks.isEmpty then none
    else if toks.length ≤ 3 then
      some (cleanSpaces (" ".intercalate toks), "short-phrase")
    else
      match searchToVerb none s.data with
      | some verb => some (lowerStr ⟨verb⟩, "to-VERB")
      | none =>
        if 5 ≤ toks.length && toks.length ≤ 8 &&
            toks.any (fun t => !stopwords.contains (lowerStr t)) then
          some (cleanSpaces (stripTerminalPunct s), "phrase-extended")
        else
          let remaining := toks.filter (fun t => !stopwords.contains (lowerStr t))
          match remaining with
          | r :: rs =>
            if remaining.any (fun t => lowerStr t = "print") then
              some ("print", "content-print")
            else
              some (lowerStr (firstLongest r rs), "content-longest")
          | [] =>
            if 4 ≤ toks.length && endsSentencePunct s then none
            else some (lowerStr (" ".intercalate (toks.take 3)), "fallback-top3")

/-! ## Inbox queue (`read_quick_entries`)

A physical line of the JSONL inbox is modelled after `json.loads`:
`blank` is an empty or whitespace-only line (skipped before parsing),
`invalid` is a line raising `JSONDecodeError` (caught and skipped),
`nonObject` is a line of valid JSON whose value is not an object (on such a
value the subsequent `"entries" in obj` / `obj.get` calls raise an uncaught
`TypeError` or `AttributeError`), and `obj` carries the key/value pairs of a
JSON object.  Values are abstracted to the shapes the code distinguishes:
strings, lists, and everything else. -/

inductive JItem where
  | jstr (s : String)
  | jother
  deriving DecidableEq, Repr

inductive JVal where
  | jstr (s : String)
  | jlist (xs : List JItem)
  | jother
  deriving DecidableEq, Repr

inductive JLine where
  | blank
  | invalid
  | nonObject
  | obj (fields : List (String × JVal))
  deriving DecidableEq, Repr

def jlookup (k : String) : List (String × JVal) → Option JVal
  | [] => none
  | (k', v) :: rest => if k' = k then some v else jlookup k rest

/-- The fallback scan over the keys `text`, `entry`, `term`, `phrase`:
the first whose value is a string or a list. -/
def fallbackPayload (fields : List (String × JVal)) : List String → Option JVal
  | [] => none
  | k :: ks =>
    match jlookup k fields with
    | some (JVal.jstr s) => some (JVal.jstr s)
    | some (JVal.jlist xs) => some (JVal.jlist xs)
    | _ => fallbackPayload fields ks

/-- The payload selected from one JSON object line: the value under
`entries` whenever the key is present (whatever its type), else the value
under `word` when it is a string, else the fallback scan. -/
def linePayload (fields : List (String × JVal)) : Option JVal :=
  if (jlookup "entries" fields).isSome then jlookup "entries" fields
  else
    match jlookup "word" fields with
    | some (JVal.jstr s) => some (JVal.jstr s)
    | _ => fallbackPayload fields ["text", "entry", "term", "phrase"]

/-- `[p.strip() for p in re.split(r"[,\n;]+", item) if p.strip()]`. -/
def splitEntryParts (item : String) : List String :=
  (chunksNot (fun c => c == ',' || c == '\n' || c == ';') item.data).filterMap
    (fun g =>
      let t := pyStrip ⟨g⟩
      if t = "" then none else some t)

/-- The string items of a payload (`values` in the source): a string payload
is the singleton, a list payload keeps its string elements, and any other
payload shape contributes nothing (the line is skipped). -/
def payloadValues : JVal → List String
  | JVal.jstr s => [s]
  | JVal.jlist xs => xs.filterMap (fun v =>
      match v with
      | JItem.jstr s => some s
      | _ => none)
  | JVal.jother => []

def readQuickEntriesGo (out : List String) : List JLine → Except Unit (List String)
  | [] => Except.ok out
  | JLine.blank :: rest => readQuickEntriesGo out rest
  | JLine.invalid :: rest => readQuickEntriesGo out rest
  | JLine.nonObject :: _ => Except.error ()
  | JLine.obj fields :: rest =>
    match linePayload fields with
    | none => readQuickEntriesGo out rest
    | some payload =>
      readQuickEntriesGo (out ++ (payloadValues payload).flatMap splitEntryParts) rest

/-- `read_quick_entries` over the lines of the inbox file (`[]` models a
missing or empty file, for which the function returns `[]` before opening).
`Except.error` models an uncaught exception escaping the function. -/
def readQuickEntries (lines : List JLine) : Except Unit (List String) :=
  readQuickEntriesGo [] lines

/-- Reference extraction for a single inbox line, written from the claim:
the trimmed non-empty pieces of each string payload, split on commas,
semicolons and newlines, in payload order; non-object and invalid lines
contribute nothing. -/
def specLineEntries : JLine → List String
  | JLine.obj fields =>
    match linePayload fields with
    | none => []
    | some payload => (payloadValues payload).flatMap splitEntryParts
  | _ => []

/-! ## Deduplication -/

/-- One candidate surviving normalization: `(lemma, rule, original)`. -/
def Cand := String × String × String
deriving instance DecidableEq, Repr for Cand

/-- The word-level (pre-enrichment) duplicate filter of `main`:
the `seen, todo = set(), []` loop. -/
def wordDedupGo (existing seen : List String) :
    List Cand → List (String × String)
  | [] => []
  | (lem, _, orig) :: rest =>
    let k := lowerStr (pyStrip lem)
    if k = "" || k ∈ seen then wordDedupGo existing seen rest
    else if !containsChar k ' ' && k ∈ existing then
      wordDedupGo existing seen rest
    else (lem, orig) :: wordDedupGo existing (k :: seen) rest

def wordDedup (existing : List String) (normalized : List Cand) :
    List (String × String) :=
  wordDedupGo existing [] normalized

/-- Reference formulation of the (amended) word-level filter: a candidate is
dropped exactly when its key is empty, or equals the key of an already kept
candidate (of any arity), or is a single token (no space) present in the
persisted set; `acc` carries the kept candidates. -/
def specWordDrop (existing acceptedKeys : List String) (k : String) : Bool :=
  k = "" || k ∈ acceptedKeys || (!containsChar k ' ' && k ∈ existing)

def specWordDedupGo (existing : List String) (acc : List (String × String))
    (accKeys : List String) : List Cand → List (String × String)
  | [] => acc
  | (lem, _, orig) :: rest =>
    let k := lowerStr (pyStrip lem)
    if specWordDrop existing accKeys k then specWordDedupGo existing acc accKeys rest
    else specWordDedupGo existing (acc ++ [(lem, orig)]) (accKeys ++ [k]) rest

def specWordDedup (existing : List String) (normalized : List Cand) :
    List (String × String) :=
  specWordDedupGo existing [] [] normalized

/-- Key of a canonical row, as used by the post-enrichment sentence filter
in `main` (`row[0], row[2], row[3]`). -/
def rowKey (r : Row) : String × String × String :=
  sentenceDuplicateKey r.wordEn r.sentencePt r.sentenceEn

/-- The sentence-level (post-enrichment) duplicate filter of `main`:
`seen_pairs` starts from the pairs loaded from the store, every row whose
key was already seen is dropped, and a kept row adds its key. -/
def sentenceFilter (seen : List (String × String × String)) :
    List Row → List Row
  | [] => []
  | r :: rest =>
    if rowKey r ∈ seen then sentenceFilter seen rest
    else r :: sentenceFilter (rowKey r :: seen) rest

/-! ## Enrichment (`ask_llm` over the `MOCK_LLM=1` shim)

The mock's JSON payload is produced by `json.dumps` and immediately parsed
back by `ask_llm`'s `_extract_json_sanitized`; that round trip is the
identity on these values (plain strings, no smart quotes, no fences), so
the model works at the field level. -/

structure Card where
  wordEn : String
  wordPt : String
  sentencePt : String
  sentenceEn : String
  deriving DecidableEq, Repr

/-- The user prompt of `ask_llm`:
`"Produce ONLY the single JSON object described above.\nTarget: "` followed
by the stripped lemma. -/
def askLlmUserPrompt (wordEn : String) : String :=
  "Produce ONLY the single JSON object described above.\nTarget: " ++ pyStrip wordEn

/-- Python `str.strip('"')`: drop leading and trailing runs of `"`. -/
def stripQuoteRuns (s : String) : String :=
  ⟨((s.data.dropWhile (fun c => c == '"')).reverse.dropWhile
      (fun c => c == '"')).reverse⟩

/-- `re.search(r"Target word:\s*(.+)", last)` in `_openai_compat._mock`:
find the leftmost occurrence of the literal `Target word:`, skip the
whitespace run, and capture the rest of the line (the capture must be
non-empty; the backtracking corner case of a whitespace-only tail never
arises because the marker never occurs in the prompts built here). -/
def findTargetWordAfter : List Char → Option (List Char)
  | [] => none
  | c :: cs =>
    if ("Target word:".data).isPrefixOf (c :: cs) then
      let rest := (c :: cs).drop ("Target word:".data).length
      let body := (rest.dropWhile pyIsSpace).takeWhile (fun d => d ≠ '\n')
      if body.isEmpty then none else some body
    else findTargetWordAfter cs

/-- The card content `_mock` answers for a request whose last user message
is `last`. -/
def mockCard (last : String) : Card :=
  let w := match findTargetWordAfter last.data with
    | some g => stripQuoteRuns (pyStrip ⟨g⟩)
    | none => "TEST"
  ⟨w, w,
   "Esta é uma frase de teste com " ++ w ++ " para verificar o pipeline.",
   "This is a test sentence with " ++ w ++ " to verify the pipeline."⟩

/-- `ask_llm` under `MOCK_LLM=1`: builds the prompts, receives the mock
card, validates that all four fields are non-empty after stripping, and
packs them (`strip` on the words, `_clean_spaces` on the sentences).
`none` models the per-item exception caught by the caller. -/
def askLlmMock (wordEn : String) : Option Card :=
  let c := mockCard (askLlmUserPrompt wordEn)
  if pyStrip c.wordEn = "" || pyStrip c.wordPt = "" ||
      pyStrip c.sentencePt = "" || pyStrip c.sentenceEn = "" then none
  else some ⟨pyStrip c.wordEn, pyStrip c.wordPt,
             cleanSpaces c.sentencePt, cleanSpaces c.sentenceEn⟩

/-! ## AnkiConnect transport (`anki_invoke` / `_launch_anki`)

The process-wide flag `_anki_launch_attempted` is the state threaded
through calls.  One call is described by the outcome of its first network
attempt, the outcome of the retry were it made, and whether
`subprocess.Popen` would succeed were it invoked. -/

inductive NetOutcome where
  | ok (v : Nat)
  | refused
  | other
  deriving DecidableEq, Repr

inductive InvokeErr where
  | refused
  | other
  deriving DecidableEq, Repr

structure CallSpec where
  first : NetOutcome
  second : NetOutcome
  popenOk : Bool
  deriving DecidableEq, Repr

instance {ε α : Type} [DecidableEq ε] [DecidableEq α] : DecidableEq (Except ε α) := fun x y =>
  match x, y with
  | Except.ok a, Except.ok b =>
    if h : a = b then isTrue (by rw [h])
    else isFalse (by intro he; cases he; exact h rfl)
  | Except.error a, Except.error b =>
    if h : a = b then isTrue (by rw [h])
    else isFalse (by intro he; cases he; exact h rfl)
  | Except.ok _, Except.error _ => isFalse (by intro h; cases h)
  | Except.error _, Except.ok _ => isFalse (by intro h; cases h)

structure InvokeResult where
  res : Except InvokeErr Nat
  stAfter : Bool
  launches : Nat
  attempts : Nat
  deriving DecidableEq, Repr

/-- `anki_invoke` with `_launch_anki` inlined: on a first-attempt
connection-refused error, when the launch flag is unset `_launch_anki` is
invoked (setting the flag whether or not `Popen` succeeds) and the call is
retried once only when `Popen` succeeded; every other failure is raised.
`launches` counts invocations of the launch command, `attempts` the network
attempts of this call. -/
def ankiInvoke (st : Bool) (c : CallSpec) : InvokeResult :=
  match c.first with
  | NetOutcome.ok v => ⟨Except.ok v, st, 0, 1⟩
  | NetOutcome.other => ⟨Except.error InvokeErr.other, st, 0, 1⟩
  | NetOutcome.refused =>
    if st then ⟨Except.error InvokeErr.refused, true, 0, 1⟩
    else if c.popenOk then
      match c.second with
      | NetOutcome.ok v => ⟨Except.ok v, true, 1, 2⟩
      | NetOutcome.refused => ⟨Except.error InvokeErr.refused, true, 1, 2⟩
      | NetOutcome.other => ⟨Except.error InvokeErr.other, true, 1, 2⟩
    else ⟨Except.error InvokeErr.refused, true, 1, 1⟩

/-- A whole process lifetime: the flag threads through successive calls;
returns the final flag and the total number of launch attempts. -/
def runCalls (st : Bool) : List CallSpec → Bool × Nat
  | [] => (st, 0)
  | c :: rest =>
    let r := ankiInvoke st c
    let rec' := runCalls r.stAfter rest
    (rec'.1, r.launches + rec'.2)

/-! ## Sync client (`add_notes_to_anki`) and the `main` pipeline

A note is identified with the canonical row it is built from (deck, model,
tags and options are constants never branched on).  The sync collaborator
is a record of pure functions: the per-word sentence pairs already in Anki
(`_get_anki_sentence_pairs`), the `canAddNotes` capability flags, and the
`addNotes` commit, whose `Except.error` models a raised exception. -/

structure SyncEnv where
  ankiPairs : String → List (String × String)
  canAdd : List Row → List Bool
  addNotes : List Row → Except String (List (Option Int))

def cacheLookup (k : String) :
    List (String × List (String × String)) → Option (List (String × String))
  | [] => none
  | (k', v) :: rest => if k' = k then some v else cacheLookup k rest

/-- The note-building loop of `add_notes_to_anki`: in-batch sentence dedup
(`seen_pairs`), then the per-word cache of sentence pairs already in Anki
keyed by `word_en.strip().lower()`. -/
def buildNotesGo (ankiPairs : String → List (String × String))
    (seen : List (String × String × String))
    (cache : List (String × List (String × String))) : List Row → List Row
  | [] => []
  | r :: rest =>
    let key := rowKey r
    if key ∈ seen then buildNotesGo ankiPairs seen cache rest
    else
      let ck := lowerStr (pyStrip r.wordEn)
      match cacheLookup ck cache with
      | some pairs =>
        if (key.2.1, key.2.2) ∈ pairs then buildNotesGo ankiPairs seen cache rest
        else r :: buildNotesGo ankiPairs (key :: seen) cache rest
      | none =>
        let pairs := ankiPairs r.wordEn
        let cache' := cache ++ [(ck, pairs)]
        if (key.2.1, key.2.2) ∈ pairs then buildNotesGo ankiPairs seen cache' rest
        else r :: buildNotesGo ankiPairs (key :: seen) cache' rest

/-- `add_notes_to_anki`, observed as its return value (or raised error)
together with the list of `addNotes` payloads issued. -/
def addNotesToAnki (sync : SyncEnv) (rows : List Row) :
    Except String (Nat × List (Option Int)) × List (List Row) :=
  if rows.isEmpty then (Except.ok (0, []), [])
  else
    let notes := buildNotesGo sync.ankiPairs [] [] rows
    if notes.isEmpty then (Except.ok (0, []), [])
    else
      let flags := sync.canAdd notes
      let addable := (notes.zip flags).filterMap (fun p => if p.2 then some p.1 else none)
      if addable.isEmpty then (Except.ok (0, []), [])
      else
        match sync.addNotes addable with
        | Except.error e => (Except.error e, [addable])
        | Except.ok gids =>
          (Except.ok (gids.countP (fun g => g.isSome), gids), [addable])

/-- The run environment of `main` with the CSV storage backend
(`--use-csv`, the branch all persisted-store claims are about). -/
structure Env where
  inbox : List JLine
  store : List String
  enrich : String → Option Card
  today : String
  sync : SyncEnv
  dryRun : Bool
  strict : Bool
  limit : Nat

/-- The `--strict` pre-filter: `len(toks) > 3` or trailing sentence
punctuation on the stripped raw entry. -/
def strictSkip (raw : String) : Bool :=
  (pyTokens raw).length > 3 || endsSentencePunct (pyStrip raw)

/-- The normalization loop of `main`. -/
def normalizeStage (strict : Bool) (rawItems : List String) : List Cand :=
  rawItems.filterMap (fun raw =>
    if strict && strictSkip raw then none
    else (extractLemma raw).map (fun p => (p.1, p.2, raw)))

/-- `if args.limit > 0: todo = todo[:args.limit]`. -/
def applyLimit (n : Nat) (l : List (String × String)) : List (String × String) :=
  if 0 < n then l.take n else l

def mainRaw (env : Env) : List String :=
  match readQuickEntries env.inbox with
  | Except.ok r => r
  | Except.error _ => []

def mainNormalized (env : Env) : List Cand :=
  normalizeStage env.strict (mainRaw env)

/-- The candidates surviving word-level deduplication (and `--limit`). -/
def mainTodo (env : Env) : List (String × String) :=
  applyLimit env.limit (wordDedup (loadExistingWords env.store) (mainNormalized env))

def mkRow (c : Card) (today : String) : Row :=
  ⟨c.wordEn, c.wordPt, c.sentencePt, c.sentenceEn, today⟩

/-- The rows produced by the enrichment loop (one per successful item). -/
def mainEnrichedRows (env : Env) : List Row :=
  (mainTodo env).filterMap (fun p => (env.enrich p.1).map (fun c => mkRow c env.today))

/-- The number of per-item enrichment failures recorded by the loop. -/
def mainFailures (env : Env) : Nat :=
  (mainTodo env).countP (fun p => (env.enrich p.1).isNone)

/-- The rows left after the post-enrichment sentence-level filter (run only
when the enrichment loop produced at least one row, as in the source). -/
def mainNewRows (env : Env) : List Row :=
  let nr := mainEnrichedRows env
  if nr.isEmpty then []
  else sentenceFilter (loadExistingSentencePairs env.store) nr

/-- Observable outcome of one `main` run: the process exit code, the rows
appended to the persisted store, the snapshot contents (`some rs` means the
snapshot file was overwritten with the canonical header followed by `rs`;
`none` means it was not written), and the `addNotes` payloads issued. -/
structure MainResult where
  exitCode : Nat
  appended : List Row
  snapshot : Option (List Row)
  commits : List (List Row)
  deriving DecidableEq, Repr

/-- `main` (CSV backend), from `read_quick_entries` on; `Except.error`
models an uncaught exception escaping `main`.  Store and snapshot writes
are modelled as succeeding. -/
def mainModel (env : Env) : Except Unit MainResult :=
  match readQuickEntries env.inbox with
  | Except.error e => Except.error e
  | Except.ok _ =>
    if (mainRaw env).isEmpty then Except.ok ⟨0, [], none, []⟩
    else if (mainNormalized env).isEmpty then Except.ok ⟨0, [], none, []⟩
    else if (mainTodo env).isEmpty then Except.ok ⟨0, [], none, []⟩
    else if (mainEnrichedRows env).isEmpty && 0 < mainFailures env then
      Except.ok ⟨1, [], if env.dryRun then none else some [], []⟩
    else if env.dryRun then Except.ok ⟨0, [], none, []⟩
    else
      let rows := mainNewRows env
      match addNotesToAnki env.sync rows with
      | (Except.error _, cs) => Except.ok ⟨1, rows, some rows, cs⟩
      | (Except.ok _, cs) => Except.ok ⟨0, rows, some rows, cs⟩

/-! ## Claim C4 -/

/-- C4: `extract_lemma` returns exactly the spec's reference outputs on its
four named inputs: `("Romantic date", "short-phrase")` on `"Romantic date"`;
`("print", "to-VERB")` on `"I have to print this page."`; `None` on
`"This is the page."`; and `("refrigerator", "content-longest")` on
`"Keep the refrigerator organized"`. -/
theorem c4_extract_lemma_reference_outputs :
    extractLemma "Romantic date" = some ("Romantic date", "short-phrase") ∧
    extractLemma "I have to print this page." = some ("print", "to-VERB") ∧
    extractLemma "This is the page." = none ∧
    extractLemma "Keep the refrigerator organized" =
      some ("refrigerator", "content-longest") := by
  exact ⟨by decide, by decide, by decide, by decide⟩

/-! ## Claim C1

The claimed run: inbox `entries: "focus, energy"`, empty persisted store,
the repository's deterministic mock collaborator (`MOCK_LLM=1`), Anki
holding no sentence pairs, a capability check approving every note, and a
commit that succeeds.  The mock's regex looks for the literal
`Target word:` while `ask_llm`'s prompt says `Target: `, so both entries
enrich to the identical `TEST` card and the sentence-level filter drops the
second; the run therefore persists one row and commits one note, not two.
(The repository's own test `test_main_writes_csv_and_calls_anki` asserts
two rows for this input.) -/

def c1Sync : SyncEnv :=
  ⟨fun _ => [], fun ns => ns.map (fun _ => true),
   fun ns => Except.ok (ns.map (fun _ => some 1))⟩

def c1Env : Env :=
  ⟨[JLine.obj [("entries", JVal.jstr "focus, energy")]], [], askLlmMock,
   "2026-10-12", c1Sync, false, false, 0⟩

/-- The single card every entry enriches to under the repository's mock. -/
def c1Row : Row :=
  ⟨"TEST", "TEST",
   "Esta é uma frase de teste com TEST para verificar o pipeline.",
   "This is a test sentence with TEST to verify the pipeline.",
   "2026-10-12"⟩

/-- C1 (evaluation at the claim's input): the run persists exactly one row,
writes a snapshot with that same one row, and issues one `addNotes` call
containing one note — not the two of everything the claim promises. -/
theorem c1_run_persists_one_row_not_two :
    mainModel c1Env = Except.ok ⟨0, [c1Row], some [c1Row], [[c1Row]]⟩ := by
  decide

/-! ## Claim C3 -/

/-- Modelled from the claim's words (and §4.5 of the spec): detection on
the *first non-empty* line — header means current, else an ISO first field
means legacy, else current. -/
def specDetectC3 (lines : List String) : Bool × CsvFmt :=
  match (lines.dropWhile (fun l => pyStrip l = "")).head? with
  | none => (false, CsvFmt.new)
  | some l =>
    let firstLine := pyStrip l
    if containsSub (lowerStr firstLine) "word_en" then (true, CsvFmt.new)
    else if isIsoDate (firstCommaField firstLine) then (false, CsvFmt.old)
    else (false, CsvFmt.new)

/-- C3 counterexample: a legacy file whose first physical line is empty.
`_detect_csv_format` looks only at the literal first line and classifies
the file as current, while the claim's first-non-empty-line rule would
classify it as legacy. -/
theorem c3_counterexample_blank_first_line :
    detectCsvFormat ["", "2024-01-01,a,b,c,d"] = (false, CsvFmt.new) ∧
    specDetectC3 ["", "2024-01-01,a,b,c,d"] = (false, CsvFmt.old) := by
  exact ⟨by decide, by decide⟩

/-- C3 amended: format detection is performed once per file on the
*literal first* line: an empty or missing first line means current format
(later lines are never consulted); otherwise a recognizable header means
current; otherwise an ISO-date first field means legacy; otherwise
current. -/
theorem c3_amended_first_line_detection (lines : List String) :
    (lines = [] → detectCsvFormat lines = (false, CsvFmt.new)) ∧
    (∀ l ls, lines = l :: ls →
      ((pyStrip l = "" → detectCsvFormat lines = (false, CsvFmt.new)) ∧
       (containsSub (lowerStr (pyStrip l)) "word_en" = true → pyStrip l ≠ "" →
         detectCsvFormat lines = (true, CsvFmt.new)) ∧
       (containsSub (lowerStr (pyStrip l)) "word_en" = false →
         isIsoDate (firstCommaField (pyStrip l)) = true → pyStrip l ≠ "" →
         detectCsvFormat lines = (false, CsvFmt.old)) ∧
       (containsSub (lowerStr (pyStrip l)) "word_en" = false →
         isIsoDate (firstCommaField (pyStrip l)) = false → pyStrip l ≠ "" →
         detectCsvFormat lines = (false, CsvFmt.new)))) := by
  constructor
  · intro h; subst h; rfl
  · intro l ls h; subst h
    refine ⟨fun he => ?_, fun hc hne => ?_, fun hc hiso hne => ?_, fun hc hiso hne => ?_⟩
    · simp [detectCsvFormat, he]
    · simp [detectCsvFormat, hne, hc]
    · simp [detectCsvFormat, hne, hc, hiso]
    · simp [detectCsvFormat, hne, hc, hiso]

/-- C3 amended, witness: the three non-trivial branches at concrete
files. -/
theorem c3_amended_witness :
    detectCsvFormat [" ", "word_en,x"] = (false, CsvFmt.new) ∧
    detectCsvFormat ["word_en,word_pt,sentence_pt,sentence_en,date_added"] =
      (true, CsvFmt.new) ∧
    detectCsvFormat ["2023-05-07,casa,house,frase,sentence"] =
      (false, CsvFmt.old) := by
  refine ⟨?_, ?_, ?_⟩
  · exact ((c3_amended_first_line_detection _).2 _ _ rfl).1 (by decide)
  · exact ((c3_amended_first_line_detection _).2 _ _ rfl).2.1 (by decide) (by decide)
  · exact ((c3_amended_first_line_detection _).2 _ _ rfl).2.2.1 (by decide) (by decide)
      (by decide)

/-! ## Claim C2 -/

theorem mem_lewAdd (col : Nat) (seen : List String) (row : List String) (x : String) :
    x ∈ lewAdd col seen row ↔ x ∈ seen ∨ colWord col row = some x := by
  unfold lewAdd
  cases h : colWord col row with
  | none => simp [h]
  | some w => simp [h, mem_insertIfAbsent, eq_comm]

/-- The `word_en` values a file yields when read at column `col` (with
multiplicity; only membership is compared against the set the source
builds). -/
def specColWords (col : Nat) (lines : List String) : List String :=
  (lines.map splitCommas).filterMap (colWord col)

theorem mem_lewGo_noHeader (col : Nat) (ls : List String) :
    ∀ (fr : Bool) (seen : List String) (x : String),
      x ∈ lewGo col false fr seen ls ↔ x ∈ seen ∨ x ∈ specColWords col ls := by
  induction ls with
  | nil => intro fr seen x; simp [lewGo, specColWords]
  | cons line rest ih =>
    intro fr seen x
    by_cases hrow : (splitCommas line).isEmpty
    · have hnil : splitCommas line = [] := by
        cases hsp : splitCommas line with
        | nil => rfl
        | cons a as => rw [hsp] at hrow; simp at hrow
      rw [lewGo]
      simp only [hrow, if_pos]
      rw [ih fr seen x]
      simp [specColWords, hnil, colWord]
    · rw [lewGo]
      simp only [hrow, Bool.and_false, if_neg, Bool.false_eq_true, not_false_iff]
      rw [ih false (lewAdd col seen (splitCommas line)) x, mem_lewAdd]
      simp [specColWords, List.mem_filterMap, or_assoc]

theorem mem_lespAdd (wCol spCol seCol : Nat)
    (seen : List (String × String × String)) (row : List String)
    (k : String × String × String) :
    k ∈ lespAdd wCol spCol seCol seen row ↔
      k ∈ seen ∨ colKey wCol spCol seCol row = some k := by
  unfold lespAdd
  cases h : colKey wCol spCol seCol row with
  | none => simp [h]
  | some key => simp [h, mem_insertIfAbsent, eq_comm]

/-- The sentence keys a file yields when read at the given columns. -/
def specColKeys (wCol spCol seCol : Nat) (lines : List String) :
    List (String × String × String) :=
  (lines.map splitCommas).filterMap (colKey wCol spCol seCol)

theorem mem_lespGo_noHeader (wCol spCol seCol : Nat) (ls : List String) :
    ∀ (fr : Bool) (seen : List (String × String × String))
      (k : String × String × String),
      k ∈ lespGo wCol spCol seCol false fr seen ls ↔
        k ∈ seen ∨ k ∈ specColKeys wCol spCol seCol ls := by
  induction ls with
  | nil => intro fr seen k; simp [lespGo, specColKeys]
  | cons line rest ih =>
    intro fr seen k
    by_cases hrow : (splitCommas line).isEmpty
    · have hnil : splitCommas line = [] := by
        cases hsp : splitCommas line with
        | nil => rfl
        | cons a as => rw [hsp] at hrow; simp at hrow
      rw [lespGo]
      simp only [hrow, if_pos]
      rw [ih fr seen k]
      simp [specColKeys, hnil, colKey]
    · rw [lespGo]
      simp only [hrow, Bool.and_false, if_neg, Bool.false_eq_true, not_false_iff]
      rw [ih false (lespAdd wCol spCol seCol seen (splitCommas line)) k, mem_lespAdd]
      simp [specColKeys, List.mem_filterMap, or_assoc]

theorem detect_old_ne_nil (lines : List String)
    (h : detectCsvFormat lines = (false, CsvFmt.old)) : lines ≠ [] := by
  intro hnil
  subst hnil
  simp [detectCsvFormat] at h

/-- Modelled from the claim's words: the first comma-field of the first
data row (first row that parses to a non-empty record). -/
def specFirstDataRowIso (lines : List String) : Bool :=
  match (lines.map splitCommas).filter (fun r => !r.isEmpty) with
  | [] => false
  | (f :: _) :: _ => isIsoDate (pyStrip f)
  | [] :: _ => false

/-- C2 counterexample: a store whose first physical line is blank and
whose first data row begins with a `YYYY-MM-DD` value.  The claim says the
word-existence check must then read `word_en` from the third column
(`"hello"`), but `load_existing_words` classifies the file as current and
reads the first column, yielding the date instead. -/
theorem c2_counterexample_blank_first_line :
    specFirstDataRowIso ["", "2024-01-01,pt,hello,sp,se"] = true ∧
    loadExistingWords ["", "2024-01-01,pt,hello,sp,se"] = ["2024-01-01"] ∧
    "hello" ∉ loadExistingWords ["", "2024-01-01,pt,hello,sp,se"] := by
  exact ⟨by decide, by decide, by decide⟩

def specLegacyWords (lines : List String) : List String :=
  specColWords 2 lines

def specLegacyPairs (lines : List String) : List (String × String × String) :=
  specColKeys 2 3 4 lines

/-- C2 amended: for every store file that `_detect_csv_format` classifies
as legacy (non-empty literal first line, no recognizable header, first
comma-field matching `YYYY-MM-DD`), the word-existence check reads
`word_en` from the third column (index 2), the sentence-pair check reads
from columns 2, 3, 4, and `append_rows` reorders each canonical row
`[word_en, word_pt, sentence_pt, sentence_en, date_added]` into
`[date_added, word_pt, word_en, sentence_pt, sentence_en]`. -/
theorem c2_amended_legacy_column_semantics (lines : List String)
    (rows : List Row) (hdet : detectCsvFormat lines = (false, CsvFmt.old)) :
    (∀ x, x ∈ loadExistingWords lines ↔ x ∈ specLegacyWords lines) ∧
    (∀ k, k ∈ loadExistingSentencePairs lines ↔ k ∈ specLegacyPairs lines) ∧
    appendRows lines rows = rows.map rowToOldList := by
  have hne : lines ≠ [] := detect_old_ne_nil lines hdet
  have hemp : lines.isEmpty = false := by
    cases lines with
    | nil => exact absurd rfl hne
    | cons a as => rfl
  refine ⟨fun x => ?_, fun k => ?_, ?_⟩
  · unfold loadExistingWords
    rw [hemp]
    simp only [Bool.false_eq_true, if_neg, not_false_iff, hdet]
    rw [mem_lewGo_noHeader 2 lines true [] x]
    simp [specLegacyWords]
  · unfold loadExistingSentencePairs
    rw [hemp]
    simp only [Bool.false_eq_true, if_neg, not_false_iff, hdet]
    rw [mem_lespGo_noHeader 2 3 4 lines true [] k]
    simp [specLegacyPairs]
  · unfold appendRows
    rw [hemp]
    simp [hdet]

/-- C2 amended, witness: a one-row legacy store. -/
theorem c2_amended_witness :
    ("hello" ∈ loadExistingWords ["2024-01-01,pt,Hello,sp,se"] ↔
      "hello" ∈ specLegacyWords ["2024-01-01,pt,Hello,sp,se"]) ∧
    appendRows ["2024-01-01,pt,Hello,sp,se"] [⟨"w", "p", "sp", "se", "d"⟩] =
      [["d", "p", "w", "sp", "se"]] := by
  have h := c2_amended_legacy_column_semantics ["2024-01-01,pt,Hello,sp,se"]
    [⟨"w", "p", "sp", "se", "d"⟩] (by decide)
  exact ⟨h.1 "hello", h.2.2⟩

/-! ## Claim C5 -/

theorem specWordDedupGo_eq_wordDedupGo (existing : List String)
    (cands : List Cand) :
    ∀ (acc : List (String × String)) (accKeys seen : List String),
      (∀ x, x ∈ seen ↔ x ∈ accKeys) →
      specWordDedupGo existing acc accKeys cands =
        acc ++ wordDedupGo existing seen cands := by
  induction cands with
  | nil => intro acc accKeys seen _; simp [specWordDedupGo, wordDedupGo]
  | cons c rest ih =>
    intro acc accKeys seen hmem
    obtain ⟨lem, rule, orig⟩ := c
    rw [specWordDedupGo, wordDedupGo]
    have hiff : specWordDrop existing accKeys (lowerStr (pyStrip lem)) = true ↔
        ((lowerStr (pyStrip lem) = "" || lowerStr (pyStrip lem) ∈ seen) = true ∨
         (!containsChar (lowerStr (pyStrip lem)) ' ' &&
            lowerStr (pyStrip lem) ∈ existing) = true) := by
      simp [specWordDrop, hmem]
    split_ifs with h1 h2 h3 h4 h5
    · exact ih acc accKeys seen hmem
    · exact ih acc accKeys seen hmem
    · exact absurd (hiff.mp h1) (by simp [h2, h3])
    · exact absurd (hiff.mpr (Or.inl h4)) h1
    · exact absurd (hiff.mpr (Or.inr h5)) h1
    · rw [ih (acc ++ [(lem, orig)]) (accKeys ++ [lowerStr (pyStrip lem)])
        (lowerStr (pyStrip lem) :: seen) (fun x => by simp [hmem x, or_comm])]
      simp

/-- C5 counterexample: two occurrences of the same multi-word lemma in one
run, against an empty persisted store.  Per the claim, a multi-word
(space-containing) lemma bypasses the word-level check entirely and is
kept; the code keeps only the first occurrence, dropping the second via the
in-run `seen` set even though the lemma is multi-word and absent from the
store. -/
theorem c5_counterexample_multiword_in_run :
    wordDedup [] [("dry run", "short-phrase", "dry run"),
                  ("dry run", "short-phrase", "dry run")] =
      [("dry run", "dry run")] ∧
    containsChar "dry run" ' ' = true ∧
    "dry run" ∉ ([] : List String) := by
  exact ⟨by decide, by decide, by decide⟩

/-- C5 amended: the pre-enrichment filter drops a normalized candidate if
and only if its stripped, lower-cased lemma key is empty, or equals the key
of a candidate already accepted earlier in the same run (multi-word or
not), or is a single token (no space) present in the set loaded from the
persisted store; multi-word lemmas bypass only the persisted-store lookup.
Stated as: the source loop equals the reference recursion that applies
exactly that drop condition against the keys of the previously kept
candidates. -/
theorem c5_amended_word_dedup_characterization (existing : List String)
    (normalized : List Cand) :
    wordDedup existing normalized = specWordDedup existing normalized := by
  unfold wordDedup specWordDedup
  rw [specWordDedupGo_eq_wordDedupGo existing normalized [] [] []
    (fun x => Iff.rfl)]
  simp

/-! ## Claim C6 -/

theorem sentenceFilter_key_not_seen (rows : List Row) :
    ∀ (seen : List (String × String × String)) (r : Row),
      r ∈ sentenceFilter seen rows → rowKey r ∉ seen := by
  induction rows with
  | nil => intro seen r h; simp [sentenceFilter] at h
  | cons x rest ih =>
    intro seen r h
    rw [sentenceFilter] at h
    by_cases hx : rowKey x ∈ seen
    · rw [if_pos hx] at h
      exact ih seen r h
    · rw [if_neg hx] at h
      rcases List.mem_cons.mp h with hr | hr
      · subst hr; exact hx
      · have := ih (rowKey x :: seen) r hr
        intro hcon
        exact this (List.mem_cons_of_mem _ hcon)

theorem sentenceFilter_countP_le_one (rows : List Row) :
    ∀ (seen : List (String × String × String)) (k : String × String × String),
      ((sentenceFilter seen rows).countP (fun r => rowKey r = k)) ≤ 1 := by
  induction rows with
  | nil => intro seen k; simp [sentenceFilter]
  | cons x rest ih =>
    intro seen k
    rw [sentenceFilter]
    by_cases hx : rowKey x ∈ seen
    · rw [if_pos hx]; exact ih seen k
    · rw [if_neg hx]
      rw [List.countP_cons]
      by_cases hk : rowKey x = k
      · have hzero :
            ((sentenceFilter (rowKey x :: seen) rest).countP
              (fun r => rowKey r = k)) = 0 := by
          rw [List.countP_eq_zero]
          intro r hr
          have := sentenceFilter_key_not_seen rest (rowKey x :: seen) r hr
          simp only [decide_eq_true_eq]
          intro hrk
          exact this (by rw [hrk, ← hk]; exact List.mem_cons_self _ _)
        rw [hzero]
        simp [hk]
      · simp only [decide_eq_true_eq, hk, if_neg, ite_false]
        simpa using ih (rowKey x :: seen) k

theorem sentenceFilter_keeps_first (r : Row) (post : List Row) :
    ∀ (pre : List Row) (seen : List (String × String × String)),
      (∀ p ∈ pre, rowKey p ≠ rowKey r) → rowKey r ∉ seen →
      r ∈ sentenceFilter seen (pre ++ r :: post) := by
  intro pre
  induction pre with
  | nil =>
    intro seen _ hseen
    rw [List.nil_append, sentenceFilter, if_neg hseen]
    exact List.mem_cons_self _ _
  | cons p ps ih =>
    intro seen hpre hseen
    rw [List.cons_append, sentenceFilter]
    by_cases hp : rowKey p ∈ seen
    · rw [if_pos hp]
      exact ih seen (fun q hq => hpre q (List.mem_cons_of_mem _ hq)) hseen
    · rw [if_neg hp]
      refine List.mem_cons_of_mem _ ?_
      refine ih (rowKey p :: seen) (fun q hq => hpre q (List.mem_cons_of_mem _ hq)) ?_
      intro hcon
      rcases List.mem_cons.mp hcon with hc | hc
      · exact hpre p (List.mem_cons_self _ _) hc.symm
      · exact hseen hc

/-- C6: two cards whose `word_en` agree up to stripping and case and whose
sentences agree after `_normalize_sentence_for_key` (i.e. differ only by
HTML tags, the modelled entities, `br`/`div` markers, or whitespace) get
the same `_sentence_duplicate_key`; and in the sentence-level filter of
`main` a key already loaded from the store is never kept, at most one card
per key survives, and the first card bearing a fresh key is the one kept. -/
theorem c6_sentence_dedup_collapses_markup :
    (∀ w w' s1 s1' s2 s2' : String,
      lowerStr (pyStrip w) = lowerStr (pyStrip w') →
      normalizeSentenceForKey s1 = normalizeSentenceForKey s1' →
      normalizeSentenceForKey s2 = normalizeSentenceForKey s2' →
      sentenceDuplicateKey w s1 s2 = sentenceDuplicateKey w' s1' s2') ∧
    (∀ seen rows (r : Row), r ∈ sentenceFilter seen rows → rowKey r ∉ seen) ∧
    (∀ seen rows (k : String × String × String),
      ((sentenceFilter seen rows).countP (fun r => rowKey r = k)) ≤ 1) ∧
    (∀ seen pre (r : Row) post,
      (∀ p ∈ pre, rowKey p ≠ rowKey r) → rowKey r ∉ seen →
      r ∈ sentenceFilter seen (pre ++ r :: post)) := by
  refine ⟨?_, ?_, ?_, ?_⟩
  · intro w w' s1 s1' s2 s2' hw h1 h2
    unfold sentenceDuplicateKey
    rw [hw, h1, h2]
  · intro seen rows r h; exact sentenceFilter_key_not_seen rows seen r h
  · intro seen rows k; exact sentenceFilter_countP_le_one rows seen k
  · intro seen pre r post hpre hseen
    exact sentenceFilter_keeps_first r post pre seen hpre hseen

def c6RowHtml : Row :=
  ⟨"Focus", "foco", "Ela tem <b>muito&nbsp;foco</b> hoje.",
   "She is <div>focused</div> today.", "2025-01-01"⟩

def c6RowPlain : Row :=
  ⟨"focus", "foco", "Ela tem muito foco hoje.",
   "She is focused today.", "2025-01-02"⟩

/-- C6 witness: the two concrete cards differing only by case, tags, an
entity and whitespace collapse to one key; run through the filter with an
empty store, only the first survives. -/
theorem c6_witness :
    sentenceDuplicateKey "Focus" "Ela tem <b>muito&nbsp;foco</b> hoje."
        "She is <div>focused</div> today." =
      sentenceDuplicateKey "focus" "Ela tem muito foco hoje."
        "She is focused today." ∧
    c6RowHtml ∈ sentenceFilter [] [c6RowHtml, c6RowPlain] ∧
    ((sentenceFilter [] [c6RowHtml, c6RowPlain]).countP
      (fun r => rowKey r = rowKey c6RowHtml)) ≤ 1 ∧
    sentenceFilter [] [c6RowHtml, c6RowPlain] = [c6RowHtml] := by
  refine ⟨?_, ?_, ?_, by decide⟩
  · exact c6_sentence_dedup_collapses_markup.1 _ _ _ _ _ _ (by decide) (by decide)
      (by decide)
  · exact c6_sentence_dedup_collapses_markup.2.2.2 [] [] c6RowHtml [c6RowPlain]
      (by intro p hp; simp at hp) (by simp)
  · exact c6_sentence_dedup_collapses_markup.2.2.1 [] [c6RowHtml, c6RowPlain] _

/-! ## Claim C7 -/

theorem applyLimit_nil (n : Nat) : applyLimit n [] = [] := by
  unfold applyLimit
  split <;> simp

theorem mainTodo_eq_nil_of_norm (env : Env) (h : mainNormalized env = []) :
    mainTodo env = [] := by
  unfold mainTodo
  rw [h]
  simp [wordDedup, wordDedupGo, applyLimit_nil]

theorem mainTodo_eq_nil_of_mainRaw (env : Env) (h : mainRaw env = []) :
    mainTodo env = [] := by
  refine mainTodo_eq_nil_of_norm env ?_
  unfold mainNormalized normalizeStage
  rw [h]
  rfl

theorem isEmpty_false_of_ne_nil {α : Type} {l : List α} (h : l ≠ []) :
    l.isEmpty = false := by
  cases l with
  | nil => exact absurd rfl h
  | cons a as => rfl

/-- C7: in a non-dry run, if the candidates surviving deduplication are
non-empty and every one of them fails enrichment, then nothing is appended
to the persisted store, the snapshot file is overwritten with exactly the
canonical header and no data rows, no sync call is issued, and the process
exits with code 1. -/
theorem c7_total_enrichment_failure_aborts (env : Env)
    (hdry : env.dryRun = false) (hne : mainTodo env ≠ [])
    (hfail : ∀ p ∈ mainTodo env, env.enrich p.1 = none) :
    mainModel env = Except.ok ⟨1, [], some [], []⟩ := by
  have henr : mainEnrichedRows env = [] := by
    unfold mainEnrichedRows
    rw [List.filterMap_eq_nil_iff]
    intro p hp
    rw [hfail p hp]
    rfl
  have hfailpos : 0 < mainFailures env := by
    unfold mainFailures
    cases ht : mainTodo env with
    | nil => exact absurd ht hne
    | cons p rest =>
      rw [List.countP_pos_iff]
      refine ⟨p, List.mem_cons_self _ _, ?_⟩
      have hp : p ∈ mainTodo env := by rw [ht]; exact List.mem_cons_self _ _
      simp [hfail p hp]
  have hraw : mainRaw env ≠ [] := fun hh => hne (mainTodo_eq_nil_of_mainRaw env hh)
  have hnorm : mainNormalized env ≠ [] := fun hh => hne (mainTodo_eq_nil_of_norm env hh)
  unfold mainModel
  cases hr : readQuickEntries env.inbox with
  | error e =>
    exfalso
    apply hraw
    unfold mainRaw
    rw [hr]
  | ok r =>
    simp only [isEmpty_false_of_ne_nil hraw, isEmpty_false_of_ne_nil hnorm,
      isEmpty_false_of_ne_nil hne, henr, List.isEmpty_nil, hfailpos,
      decide_True, Bool.true_and, Bool.and_true, Bool.false_eq_true,
      if_false, if_true, hdry]

def c7Env : Env :=
  ⟨[JLine.obj [("word", JVal.jstr "focus")]], [], fun _ => none, "2026-10-12",
   ⟨fun _ => [], fun _ => [], fun _ => Except.ok []⟩, false, false, 0⟩

/-- C7 witness: one candidate, enrichment always failing. -/
theorem c7_witness :
    mainTodo c7Env ≠ [] ∧ mainModel c7Env = Except.ok ⟨1, [], some [], []⟩ := by
  refine ⟨by decide, ?_⟩
  exact c7_total_enrichment_failure_aborts c7Env rfl (by decide) (fun p _ => rfl)

/-! ## Claim C9 -/

/-- C9: in a non-dry run that reaches the write stage with a non-empty set
of new rows, if the `addNotes` commit raises, the process exits with code 1
while the rows appended in that run remain both in the store and in the
snapshot — persistence is not rolled back on sync failure. -/
theorem c9_sync_failure_keeps_persisted_rows (env : Env) (msg : String)
    (cs : List (List Row)) (hdry : env.dryRun = false)
    (hrows : mainNewRows env ≠ [])
    (hsync : addNotesToAnki env.sync (mainNewRows env) = (Except.error msg, cs)) :
    mainModel env = Except.ok ⟨1, mainNewRows env, some (mainNewRows env), cs⟩ := by
  have henr : mainEnrichedRows env ≠ [] := by
    intro hh
    apply hrows
    unfold mainNewRows
    rw [hh]
    simp
  have htodo : mainTodo env ≠ [] := by
    intro hh
    apply henr
    unfold mainEnrichedRows
    rw [hh]
    rfl
  have hraw : mainRaw env ≠ [] := fun hh => htodo (mainTodo_eq_nil_of_mainRaw env hh)
  have hnorm : mainNormalized env ≠ [] := fun hh => htodo (mainTodo_eq_nil_of_norm env hh)
  unfold mainModel
  cases hr : readQuickEntries env.inbox with
  | error e =>
    exfalso
    apply hraw
    unfold mainRaw
    rw [hr]
  | ok r =>
    simp only [isEmpty_false_of_ne_nil hraw, isEmpty_false_of_ne_nil hnorm,
      isEmpty_false_of_ne_nil htodo, isEmpty_false_of_ne_nil henr, hdry,
      Bool.false_and, Bool.false_eq_true, if_false]
    rw [hsync]

def c9Env : Env :=
  ⟨[JLine.obj [("word", JVal.jstr "focus")]], [],
   fun w => some (Card.mk w "foco" "Ela concentra-se bem." "She focuses well."),
   "2026-10-12",
   ⟨fun _ => [], fun ns => ns.map (fun _ => true), fun _ => Except.error "boom"⟩,
   false, false, 0⟩

def c9Row : Row :=
  ⟨"focus", "foco", "Ela concentra-se bem.", "She focuses well.", "2026-10-12"⟩

/-- C9 witness: the commit raises on a one-row batch; the run exits 1 with
the row persisted and snapshotted. -/
theorem c9_witness :
    mainModel c9Env = Except.ok ⟨1, mainNewRows c9Env, some (mainNewRows c9Env),
      [[c9Row]]⟩ ∧
    mainNewRows c9Env = [c9Row] := by
  refine ⟨?_, by decide⟩
  exact c9_sync_failure_keeps_persisted_rows c9Env "boom" [[c9Row]] rfl
    (by decide) (by decide)

/-! ## Claim C8 -/

theorem ankiInvoke_true_state (c : CallSpec) :
    (ankiInvoke true c).launches = 0 ∧ (ankiInvoke true c).stAfter = true := by
  cases hc : c.first <;> simp [ankiInvoke, hc]

theorem ankiInvoke_false_cases (c : CallSpec) :
    ((ankiInvoke false c).launches = 0 ∧ (ankiInvoke false c).stAfter = false) ∨
    ((ankiInvoke false c).launches = 1 ∧ (ankiInvoke false c).stAfter = true) := by
  cases hc : c.first <;> simp [ankiInvoke, hc]
  cases hp : c.popenOk <;> simp [hp]
  cases hs : c.second <;> simp

theorem runCalls_launches_le (calls : List CallSpec) :
    ∀ st : Bool, (runCalls st calls).2 ≤ (if st then 0 else 1) := by
  induction calls with
  | nil => intro st; simp [runCalls]
  | cons c rest ih =>
    intro st
    simp only [runCalls]
    cases st with
    | true =>
      have h := ankiInvoke_true_state c
      rw [h.1, h.2]
      simpa using ih true
    | false =>
      rcases ankiInvoke_false_cases c with ⟨h0, hst⟩ | ⟨h1, hst⟩
      · rw [h0, hst]
        simpa using ih false
      · rw [h1, hst]
        have htr := ih true
        simp only [if_pos] at htr
        simp [Nat.le_antisymm htr (Nat.zero_le _)]

/-- C8: starting from a fresh process (`_anki_launch_attempted = False`),
across any sequence of `anki_invoke` calls at most one launch of the
external service is ever attempted; a single call makes at most two network
attempts, exactly two precisely when its first attempt is refused, the
flag was unset and the launch command spawns; a refusal after the flag is
set propagates with no further launch or retry; a non-refusal network
error always propagates without any launch; and a failing retry propagates
after the second attempt. -/
theorem c8_connection_refused_single_recovery :
    (∀ calls : List CallSpec, (runCalls false calls).2 ≤ 1) ∧
    (∀ (st : Bool) (c : CallSpec),
      (ankiInvoke st c).attempts ≤ 2 ∧
      ((ankiInvoke st c).attempts = 2 ↔
        (c.first = NetOutcome.refused ∧ st = false ∧ c.popenOk = true))) ∧
    (∀ c : CallSpec, c.first = NetOutcome.refused →
      ankiInvoke true c = ⟨Except.error InvokeErr.refused, true, 0, 1⟩) ∧
    (∀ (st : Bool) (c : CallSpec), c.first = NetOutcome.other →
      ankiInvoke st c = ⟨Except.error InvokeErr.other, st, 0, 1⟩) ∧
    (∀ c : CallSpec, c.first = NetOutcome.refused → c.popenOk = true →
      c.second = NetOutcome.refused →
      ankiInvoke false c = ⟨Except.error InvokeErr.refused, true, 1, 2⟩) ∧
    (∀ c : CallSpec, c.first = NetOutcome.refused → c.popenOk = true →
      c.second = NetOutcome.other →
      ankiInvoke false c = ⟨Except.error InvokeErr.other, true, 1, 2⟩) := by
  refine ⟨?_, ?_, ?_, ?_, ?_, ?_⟩
  · intro calls
    simpa using runCalls_launches_le calls false
  · intro st c
    cases hc : c.first <;> cases st <;> simp [ankiInvoke, hc]
    · cases hp : c.popenOk <;> simp [hp]
      cases hs : c.second <;> simp
  · intro c hc; simp [ankiInvoke, hc]
  · intro st c hc; simp [ankiInvoke, hc]
  · intro c hc hp hs; simp [ankiInvoke, hc, hp, hs]
  · intro c hc hp hs; simp [ankiInvoke, hc, hp, hs]

/-- C8 witness: a process making two refused calls launches only once; the
post-launch refusal, the non-refused error, and the failed retry all
propagate after a single extra attempt at most. -/
theorem c8_witness :
    (runCalls false [⟨NetOutcome.refused, NetOutcome.ok 7, true⟩,
        ⟨NetOutcome.refused, NetOutcome.ok 7, true⟩]).2 ≤ 1 ∧
    ankiInvoke true ⟨NetOutcome.refused, NetOutcome.ok 7, true⟩ =
      ⟨Except.error InvokeErr.refused, true, 0, 1⟩ ∧
    ankiInvoke false ⟨NetOutcome.other, NetOutcome.ok 7, true⟩ =
      ⟨Except.error InvokeErr.other, false, 0, 1⟩ ∧
    ankiInvoke false ⟨NetOutcome.refused, NetOutcome.refused, true⟩ =
      ⟨Except.error InvokeErr.refused, true, 1, 2⟩ := by
  refine ⟨c8_connection_refused_single_recovery.1 _,
    c8_connection_refused_single_recovery.2.2.1 _ rfl,
    c8_connection_refused_single_recovery.2.2.2.1 _ _ rfl,
    c8_connection_refused_single_recovery.2.2.2.2.1 _ rfl rfl rfl⟩

/-! ## Claim C10 -/

/-- C10 counterexample: a line of valid JSON that is not an object (for
example the line `5`).  Per the claim such a line is "skipped silently",
which would give `ok []`; the code instead hits `"entries" in obj` /
`obj.get` on a non-dict value and the resulting `TypeError` or
`AttributeError` escapes `read_quick_entries` uncaught. -/
theorem c10_counterexample_non_object_line :
    readQuickEntries [JLine.nonObject] = Except.error () ∧
    readQuickEntries [JLine.nonObject] ≠ Except.ok [] := by
  exact ⟨by decide, by decide⟩

theorem readQuickEntriesGo_spec (lines : List JLine) :
    ∀ out : List String, (∀ l ∈ lines, l ≠ JLine.nonObject) →
      readQuickEntriesGo out lines =
        Except.ok (out ++ lines.flatMap specLineEntries) := by
  induction lines with
  | nil => intro out _; simp [readQuickEntriesGo]
  | cons l rest ih =>
    intro out h
    have hr : ∀ x ∈ rest, x ≠ JLine.nonObject :=
      fun x hx => h x (List.mem_cons_of_mem _ hx)
    cases l with
    | blank =>
      rw [readQuickEntriesGo, ih out hr]
      simp [specLineEntries]
    | invalid =>
      rw [readQuickEntriesGo, ih out hr]
      simp [specLineEntries]
    | nonObject => exact absurd rfl (h _ (List.mem_cons_self _ _))
    | obj fields =>
      rw [readQuickEntriesGo]
      cases hp : linePayload fields with
      | none =>
        rw [ih out hr]
        simp [specLineEntries, hp]
      | some payload =>
        have hih := ih (out ++ (payloadValues payload).flatMap splitEntryParts) hr
        simp [hih, specLineEntries, hp, List.append_assoc]

/-- C10 amended: for every inbox file none of whose lines is valid
non-object JSON, `read_quick_entries` returns, in file-then-payload order,
the trimmed non-empty pieces obtained by splitting each string payload on
runs of commas, semicolons and newlines; blank lines, lines failing JSON
parsing, payloads that are neither strings nor lists, and non-string items
inside list payloads are skipped silently, and a missing or empty inbox
file yields the empty list.  (A valid non-object JSON line instead raises
an uncaught error, per the counterexample.) -/
theorem c10_amended_read_quick_entries (lines : List JLine)
    (h : ∀ l ∈ lines, l ≠ JLine.nonObject) :
    readQuickEntries lines = Except.ok (lines.flatMap specLineEntries) := by
  unfold readQuickEntries
  rw [readQuickEntriesGo_spec lines [] h]
  simp

/-- C10 witness: a mixed inbox exercising every skipped shape. -/
theorem c10_witness :
    readQuickEntries
        [JLine.blank, JLine.invalid,
         JLine.obj [("entries", JVal.jstr "print, copy;  scan ")],
         JLine.obj [("entries", JVal.jother)],
         JLine.obj [("word", JVal.jstr "laminate")],
         JLine.obj [("note", JVal.jother), ("text", JVal.jlist
           [JItem.jstr "draft", JItem.jother, JItem.jstr " fax "])]] =
      Except.ok ["print", "copy", "scan", "laminate", "draft", "fax"] := by
  rw [c10_amended_read_quick_entries _ (by decide)]
  decide
